import Mathlib

/-!
# Verification of the clr-installer configuration model and progress protocol

A shallow embedding of the installer's GUI progress pages
(`gui/pages/install.go`, `gui/pages/pre_check.go`), its configuration
model (`model.SystemInstall`) and the device model, together with proofs
of the specification's claims about them.

GTK widget construction, styling and layout are out of scope of the
spec; the embedding keeps only the state that the claims are about
(step-index counter, widget map, action traces) and records the
out-of-scope calls as opaque trace actions.
-/

/-- Modelled from the spec: the `InstallWidget` type (gui/widgets) is not in
src/; §4.4 of the spec says `Desc` announces a new step, the previous step is
marked completed/visually finalized, and `Success`/`Failure` finalize the
current step's visual status.  A widget holds its description and a visual
status. -/
inductive StepStatus where
  | running
  | completed
  | succeeded
  | failed
  deriving DecidableEq, Repr

/-- Modelled from the spec: an install widget displays one discrete step;
`NewInstallWidget(desc)` creates it in the "running" visual state. -/
structure InstallWidget where
  desc : String
  status : StepStatus
  deriving DecidableEq, Repr

/-- Modelled from the spec: `NewInstallWidget` constructs a widget for a
freshly announced step. -/
def NewInstallWidget (d : String) : InstallWidget :=
  { desc := d, status := .running }

/-- Modelled from the spec: `Completed()` marks the widget's step as
completed/visually finalized. -/
def InstallWidget.Completed (w : InstallWidget) : InstallWidget :=
  { w with status := .completed }

/-- Modelled from the spec: `MarkStatus(b)` finalizes the widget's step as
succeeded (`b = true`) or failed (`b = false`). -/
def InstallWidget.MarkStatus (w : InstallWidget) (ok : Bool) : InstallWidget :=
  { w with status := if ok then .succeeded else .failed }

/-- The progress-relevant state of `InstallPage` (gui/pages/install.go):
`selection` is the current progress selection (a Go `int`), `widgets` is the
`map[int]*InstallWidget`; a Go map lookup of an absent key yields a nil
pointer, embedded as `none`. -/
structure InstallPage where
  selection : Int
  widgets : Int → Option InstallWidget

/-- The `NewInstallPage` initialises `widgets: make(map[int]*InstallWidget)` and
`selection: -1`. -/
def NewInstallPage : InstallPage :=
  { selection := -1, widgets := fun _ => none }

/-- The `InstallPage.Desc`: increments `selection`; if `selection > 0` calls
`Completed()` on `widgets[selection-1]` (a nil-pointer dereference, embedded
as `none`, if that entry is absent); then stores `NewInstallWidget(desc)` at
`widgets[selection]`. -/
def InstallPage.Desc (p : InstallPage) (d : String) : Option InstallPage :=
  let sel := p.selection + 1
  if sel > 0 then
    match p.widgets (sel - 1) with
    | none => none
    | some w =>
      some { selection := sel,
             widgets := fun i =>
               if i = sel then some (NewInstallWidget d)
               else if i = sel - 1 then some w.Completed
               else p.widgets i }
  else
    some { selection := sel,
           widgets := fun i =>
             if i = sel then some (NewInstallWidget d) else p.widgets i }

/-- The `InstallPage.Failure`: calls `MarkStatus(false)` on `widgets[selection]`
(nil-pointer dereference, embedded as `none`, if absent). -/
def InstallPage.Failure (p : InstallPage) : Option InstallPage :=
  match p.widgets p.selection with
  | none => none
  | some w =>
    some { p with widgets := fun i =>
             if i = p.selection then some (w.MarkStatus false) else p.widgets i }

/-- The `InstallPage.Success`: calls `MarkStatus(true)` on `widgets[selection]`
(nil-pointer dereference, embedded as `none`, if absent). -/
def InstallPage.Success (p : InstallPage) : Option InstallPage :=
  match p.widgets p.selection with
  | none => none
  | some w =>
    some { p with widgets := fun i =>
             if i = p.selection then some (w.MarkStatus true) else p.widgets i }

/-- The progress-relevant state of `PreCheckPage` (gui/pages/pre_check.go);
identical bookkeeping to `InstallPage`. -/
structure PreCheckPage where
  selection : Int
  widgets : Int → Option InstallWidget

/-- The `NewPreCheckPage` initialises `widgets: make(map[int]*InstallWidget)` and
`selection: -1`. -/
def NewPreCheckPage : PreCheckPage :=
  { selection := -1, widgets := fun _ => none }

/-- The `PreCheckPage.Desc`: increments `selection`; if `selection > 0` calls
`Completed()` on `widgets[selection-1]`; then stores `NewInstallWidget(desc)`
at `widgets[selection]`. -/
def PreCheckPage.Desc (p : PreCheckPage) (d : String) : Option PreCheckPage :=
  let sel := p.selection + 1
  if sel > 0 then
    match p.widgets (sel - 1) with
    | none => none
    | some w =>
      some { selection := sel,
             widgets := fun i =>
               if i = sel then some (NewInstallWidget d)
               else if i = sel - 1 then some w.Completed
               else p.widgets i }
  else
    some { selection := sel,
           widgets := fun i =>
             if i = sel then some (NewInstallWidget d) else p.widgets i }

/-- The `PreCheckPage.Failure`: calls `MarkStatus(false)` on
`widgets[selection]`. -/
def PreCheckPage.Failure (p : PreCheckPage) : Option PreCheckPage :=
  match p.widgets p.selection with
  | none => none
  | some w =>
    some { p with widgets := fun i =>
             if i = p.selection then some (w.MarkStatus false) else p.widgets i }

/-- The `PreCheckPage.Success`: calls `MarkStatus(true)` on
`widgets[selection]`. -/
def PreCheckPage.Success (p : PreCheckPage) : Option PreCheckPage :=
  match p.widgets p.selection with
  | none => none
  | some w =>
    some { p with widgets := fun i =>
             if i = p.selection then some (w.MarkStatus true) else p.widgets i }

/-- Folding a sequence of `Desc` calls over an `InstallPage`. -/
def InstallPage.descRun (p : InstallPage) : List String → Option InstallPage
  | [] => some p
  | d :: ds => (p.Desc d).bind (fun q => q.descRun ds)


/-! ## Device model -/

/-- Modelled from the spec: `storage.BlockDevice` is not in src/ (only its
tests are).  §3: a block device has a `Name` (display/alias form), a
`MountPoint`, a `FileSystemType`, a `Size`, boot/root markers used by
validation, and an ordered sequence of `Children`. -/
inductive BlockDevice where
  | mk (Name : String) (MountPoint : String) (FsType : String) (Size : Nat)
       (BootFlag : Bool) (Children : List BlockDevice)

mutual

/-- Decidable structural equality on block devices (all attributes and all
children, recursively, in order). -/
def BlockDevice.decEq : (a b : BlockDevice) → Decidable (a = b)
  | .mk n1 m1 f1 s1 b1 c1, .mk n2 m2 f2 s2 b2 c2 =>
    if h1 : n1 = n2 then
      if h2 : m1 = m2 then
        if h3 : f1 = f2 then
          if h4 : s1 = s2 then
            if h5 : b1 = b2 then
              match BlockDevice.decEqList c1 c2 with
              | isTrue h6 => isTrue (by rw [h1, h2, h3, h4, h5, h6])
              | isFalse h6 => isFalse (by intro h; injection h; contradiction)
            else isFalse (by intro h; injection h; contradiction)
          else isFalse (by intro h; injection h; contradiction)
        else isFalse (by intro h; injection h; contradiction)
      else isFalse (by intro h; injection h; contradiction)
    else isFalse (by intro h; injection h; contradiction)

/-- Decidable structural equality on lists of block devices. -/
def BlockDevice.decEqList : (a b : List BlockDevice) → Decidable (a = b)
  | [], [] => isTrue rfl
  | [], _ :: _ => isFalse (by intro h; cases h)
  | _ :: _, [] => isFalse (by intro h; cases h)
  | x :: xs, y :: ys =>
    match BlockDevice.decEq x y, BlockDevice.decEqList xs ys with
    | isTrue h1, isTrue h2 => isTrue (by rw [h1, h2])
    | isFalse h1, _ => isFalse (by intro h; injection h; contradiction)
    | _, isFalse h2 => isFalse (by intro h; injection h; contradiction)

end

instance : DecidableEq BlockDevice := BlockDevice.decEq

/-- The `Name` attribute of a block device. -/
def BlockDevice.Name : BlockDevice → String
  | .mk n _ _ _ _ _ => n

/-- The `MountPoint` attribute of a block device. -/
def BlockDevice.MountPoint : BlockDevice → String
  | .mk _ m _ _ _ _ => m

/-- The `BootFlag` marker of a block device. -/
def BlockDevice.BootFlag : BlockDevice → Bool
  | .mk _ _ _ _ b _ => b

/-- The ordered children (partitions) of a block device. -/
def BlockDevice.Children : BlockDevice → List BlockDevice
  | .mk _ _ _ _ _ c => c

/-- Modelled from the spec: §4.1, two BlockDevices are equal if all
attributes and all children (recursively, in order) are equal; this is the
equality the configuration model's de-duplication uses. -/
def BlockDevice.Equals (a b : BlockDevice) : Bool :=
  decide (a = b)

/-- Modelled from the spec: §4.1 `clone()` produces a fully independent copy
including all children; on pure values the copy is the value itself. -/
def BlockDevice.Clone (a : BlockDevice) : BlockDevice :=
  a

/-- Modelled from the spec: `withName` builds the UI's
`clone`-then-modify-`Name` draft (the test appends `"-cloned"` to the
clone's `Name`). -/
def BlockDevice.withName (a : BlockDevice) (n : String) : BlockDevice :=
  match a with
  | .mk _ m f s b c => .mk n m f s b c

/-- Modelled from the spec: §3 invariant, `GetDeviceFile()` resolves a
device's `Name` to the concrete device file under the platform device root,
`/dev/<Name>` (`filepath.Join("/dev/", name)` in the tests). -/
def BlockDevice.GetDeviceFile (a : BlockDevice) : String :=
  "/dev/" ++ a.Name

/-- Modelled from the spec: §6, the alias registry is a settable list of
recognized alias device names (`testAlias` in the tests); `isTestAlias`
checks membership. -/
def isTestAlias (reg : List String) (file : String) : Bool :=
  decide (file ∈ reg)

/-- Modelled from the spec: a descriptor's device name is either a literal
name or a template variable to be resolved against the alias registry. -/
inductive DescName where
  | lit (s : String)
  | var (v : String)
  deriving DecidableEq, Repr

/-- Modelled from the spec: §4.1 `resolve`, expanding a descriptor name —
a template variable resolves against the registered alias table
(`/dev/<v>` registered means the variable expands to the concrete name
`v`); if absent, the name is returned unchanged, treated as already a
device name. -/
def expandName (reg : List String) : DescName → String
  | .lit s => s
  | .var v => if isTestAlias reg ("/dev/" ++ v) then v else v

/-- Modelled from the spec: a block-device descriptor as deserialized from a
yaml file — a (possibly aliased) disk name and the list of partition
descriptors, each carrying its mount point, filesystem type, size and boot
flag; child names are positional. -/
structure BlockDeviceDescriptor where
  name : DescName
  parts : List (String × String × Nat × Bool)

/-- Modelled from the spec: loading a block-device descriptor expands the
disk's name against the alias registry and names the Nth child partition
positionally `<disk>{N}` (§3 invariant: the Nth child of disk `sda` is
named `sda{N}`). -/
def loadBlockDevice (reg : List String) (d : BlockDeviceDescriptor) : BlockDevice :=
  let n := expandName reg d.name
  .mk n "" "" 0 false
    ((List.range d.parts.length).zip d.parts |>.map
      (fun x => .mk (n ++ toString (x.1 + 1)) x.2.1 x.2.2.1 x.2.2.2.1 x.2.2.2.2 []))

/-! ## Configuration model -/

/-- Modelled from the spec: `user.User` is not in src/; a user has a
`Login`, a `Password` and an `Admin` flag, with uniqueness by login. -/
structure User where
  Login : String
  Password : String
  Admin : Bool
  deriving DecidableEq, Repr

/-- Modelled from the spec: a network interface, with uniqueness by
interface identity (structural equality). -/
structure NetworkInterface where
  Name : String
  Addr : String
  Gateway : String
  DNS : String
  deriving DecidableEq, Repr

/-- Modelled from the spec: the `Telemetry` holder — presence plus an
enabled flag. -/
structure Telemetry where
  Enabled : Bool
  deriving DecidableEq, Repr

/-- Modelled from the spec: the `KernelArguments` holder — two string sets
`Add` and `Remove`, kept as Go slices with insertion de-duplicated. -/
structure KernelArguments where
  Add : List String := []
  Remove : List String := []
  deriving DecidableEq, Repr

/-- Modelled from the spec: `model.SystemInstall` is not in src/ (only its
tests are).  §3: the aggregate install plan — target media, network
interfaces, users, bundles, kernel argument deltas, telemetry setting,
keyboard, language, hostname.  Optional holders are absent (`none`) until
explicitly set. -/
structure SystemInstall where
  TargetMedias : List BlockDevice := []
  NetworkInterfaces : List NetworkInterface := []
  Users : List User := []
  Bundles : List String := []
  UserBundles : List String := []
  KernelArguments : Option KernelArguments := none
  Telemetry : Option Telemetry := none
  Keyboard : Option String := none
  Language : Option String := none
  Hostname : String := ""
  deriving DecidableEq

/-- Modelled from the spec: §4.2 `AddTargetMedia(device)` appends `device`
to `TargetMedias` unless an equal device (by Device Model equality) is
already present; never errors, never duplicates. -/
def SystemInstall.AddTargetMedia (si : SystemInstall) (d : BlockDevice) : SystemInstall :=
  if si.TargetMedias.any (fun c => c.Equals d) then si
  else { si with TargetMedias := si.TargetMedias ++ [d] }

/-- Modelled from the spec: §4.2 `AddNetworkInterface(iface)` appends unless
an equal interface is present. -/
def SystemInstall.AddNetworkInterface (si : SystemInstall) (n : NetworkInterface) : SystemInstall :=
  if n ∈ si.NetworkInterfaces then si
  else { si with NetworkInterfaces := si.NetworkInterfaces ++ [n] }

/-- Modelled from the spec: §4.2 `AddUser(user)` appends unless a user with
the same login is present. -/
def SystemInstall.AddUser (si : SystemInstall) (u : User) : SystemInstall :=
  if si.Users.any (fun c => c.Login = u.Login) then si
  else { si with Users := si.Users ++ [u] }

/-- Modelled from the spec: §4.2 `RemoveAllUsers()` clears the whole set. -/
def SystemInstall.RemoveAllUsers (si : SystemInstall) : SystemInstall :=
  { si with Users := [] }

/-- Modelled from the spec: §4.2 `AddBundle(name)` — set semantics on bundle
names, idempotent add. -/
def SystemInstall.AddBundle (si : SystemInstall) (b : String) : SystemInstall :=
  if b ∈ si.Bundles then si
  else { si with Bundles := si.Bundles ++ [b] }

/-- Modelled from the spec: §4.2 `RemoveBundle(name)` — a no-op if absent. -/
def SystemInstall.RemoveBundle (si : SystemInstall) (b : String) : SystemInstall :=
  { si with Bundles := si.Bundles.filter (fun c => c ≠ b) }

/-- Modelled from the spec: §4.2 `ContainsBundle` — membership predicate by
name. -/
def SystemInstall.ContainsBundle (si : SystemInstall) (b : String) : Bool :=
  decide (b ∈ si.Bundles)

/-- Modelled from the spec: each argument is added to a kernel-argument set
only if not already present (`utils.StringSliceContains` in the tests). -/
def addArgUnique (l : List String) (a : String) : List String :=
  if a ∈ l then l else l ++ [a]

/-- Modelled from the spec: §4.2 `AddExtraKernelArguments(args)` lazily
allocates the `KernelArguments` holder on first call; each argument is added
to `Add` only if not already present. -/
def SystemInstall.AddExtraKernelArguments (si : SystemInstall) (args : List String) : SystemInstall :=
  let ka := si.KernelArguments.getD {}
  { si with KernelArguments := some { ka with Add := args.foldl addArgUnique ka.Add } }

/-- Modelled from the spec: §4.2 `RemoveKernelArguments(args)` lazily
allocates the `KernelArguments` holder on first call; each argument is added
to `Remove` only if not already present. -/
def SystemInstall.RemoveKernelArguments (si : SystemInstall) (args : List String) : SystemInstall :=
  let ka := si.KernelArguments.getD {}
  { si with KernelArguments := some { ka with Remove := args.foldl addArgUnique ka.Remove } }

/-- Modelled from the spec: §4.2 `EnableTelemetry(bool)` lazily allocates
the `Telemetry` holder and sets its enabled flag. -/
def SystemInstall.EnableTelemetry (si : SystemInstall) (b : Bool) : SystemInstall :=
  { si with Telemetry := some { Enabled := b } }

/-- Modelled from the spec: §4.2 `IsTelemetryEnabled()` returns false if
`Telemetry` is absent, else its flag — must never fail. -/
def SystemInstall.IsTelemetryEnabled (si : SystemInstall) : Bool :=
  match si.Telemetry with
  | none => false
  | some t => t.Enabled


/-! ## Validation engine -/

/-- Modelled from the spec: §4.3, the individual constraint violations the
validation pass detects. -/
inductive Violation where
  | noKeyboard
  | noLanguage
  | noTelemetry
  | noBootable
  | noRootPartition
  deriving DecidableEq, Repr

/-- A present, non-empty optional string (missing or empty both count as a
violation for `Keyboard` and `Language`). -/
def strPresent : Option String → Bool
  | none => false
  | some s => !(s = "")

mutual

/-- Whether some partition in the device's subtree (the device's children,
recursively) satisfies `p`. -/
def BlockDevice.hasPart (p : BlockDevice → Bool) : BlockDevice → Bool
  | .mk _ _ _ _ _ c => BlockDevice.hasPartList p c

/-- Whether some device in the list, or some partition below one, satisfies
`p`. -/
def BlockDevice.hasPartList (p : BlockDevice → Bool) : List BlockDevice → Bool
  | [] => false
  | x :: xs => (p x || BlockDevice.hasPart p x) || BlockDevice.hasPartList p xs

end

/-- Modelled from the spec: §4.3, the aggregate list of constraint
violations detected in a single pass — missing/empty keyboard, missing/empty
language, no telemetry decision, no bootable partition among the target
medias, no partition mounted at the root path among the target medias. -/
def SystemInstall.violations (si : SystemInstall) : List Violation :=
  (if strPresent si.Keyboard then [] else [.noKeyboard]) ++
  (if strPresent si.Language then [] else [.noLanguage]) ++
  (if si.Telemetry.isSome then [] else [.noTelemetry]) ++
  (if si.TargetMedias.any (BlockDevice.hasPart (fun d => d.BootFlag)) then []
   else [.noBootable]) ++
  (if si.TargetMedias.any (BlockDevice.hasPart (fun d => d.MountPoint = "/")) then []
   else [.noRootPartition])

/-- Modelled from the spec: §4.3 `Validate(model) -> error-or-nil`; the
error, when present, aggregates every violated constraint detected, not
just the first.  `none` embeds Go's nil error. -/
def SystemInstall.Validate (si : SystemInstall) : Option (List Violation) :=
  if si.violations.isEmpty then none else some si.violations

/-! ## First-line extraction and the page action traces -/

/-- Go `strings.Split(s, "\n")` on a string viewed as its character list:
the newline-separated segments, always a nonempty list. -/
def splitNewline : List Char → List (List Char)
  | [] => [[]]
  | c :: cs =>
    if c = '\n' then [] :: splitNewline cs
    else
      match splitNewline cs with
      | [] => [[c]]
      | l :: ls => (c :: l) :: ls

/-- The `strings.Split(err.Error(), "\n")[0]`: the first line of an error
message (install.go and pre_check.go use exactly this expression). -/
def firstLine (s : List Char) : List Char :=
  (splitNewline s).headD []

/-- Button flags from gui/common.go (`Button = 1 << iota`). -/
def ButtonCancel : Nat := 1

/-- gui/common.go `ButtonConfirm`. -/
def ButtonConfirm : Nat := 2

/-- gui/common.go `ButtonQuit`. -/
def ButtonQuit : Nat := 4

/-- gui/common.go `ButtonBack`. -/
def ButtonBack : Nat := 8

/-- gui/common.go `ButtonNext`. -/
def ButtonNext : Nat := 16

/-- gui/common.go `ButtonExit`. -/
def ButtonExit : Nat := 32

/-- The observable actions the two pages' `ResetChanges` routines perform,
in program order.  Out-of-scope collaborator calls (network downloads, the
controller entry points, the progress register, GTK updates) are recorded
as opaque actions. -/
inductive GuiAction where
  | setInfoText (t : List Char)
  | printError (v : List Violation)
  | progressSet
  | downloadInstallerMessage (phase : List Char)
  | ctrlInstall
  | ctrlPreCheck
  | setFractionFull
  | styleWarning
  | setButtonState (flags : Nat) (enabled : Bool)
  | sleep
  | setPreCheckChannel (success : Bool)
  deriving DecidableEq

/-- The `InstallPage.ResetChanges` (install.go): sets the intro text, validates
the model and stops (printing the error) on a validation failure; otherwise
registers the page as the progress hook, starts the pre-install download,
runs `ctrl.Install`, fills the progress bar, reports failure (first line of
the error, warning style) or success, starts the post-install download and
enables the quit button.  `loc` is the out-of-scope locale lookup;
`installResult` is the error returned by the out-of-scope `ctrl.Install`
(`some e` embeds a non-nil error whose `Error()` text is `e`).  Returns the
action trace in program order together with the (unchanged) model. -/
def installResetChanges (loc : List Char → List Char) (m : SystemInstall)
    (installResult : Option (List Char)) : List GuiAction × SystemInstall :=
  let intro := GuiAction.setInfoText
    (loc (loc "Installation in progress.".data) ++ " ".data ++ loc "Please wait.".data)
  match m.Validate with
  | some e => ([intro, .printError e], m)
  | none =>
    let outcome := match installResult with
      | some e =>
          [GuiAction.setInfoText
             (loc "Installation failed.".data ++ '\n' :: firstLine e),
           .styleWarning]
      | none =>
          [GuiAction.setInfoText
             (loc "Installation successful.".data ++ " ".data ++ loc "Exit.".data)]
    ([intro, .progressSet, .downloadInstallerMessage "Pre-Installation".data,
      .ctrlInstall, .setFractionFull] ++ outcome ++
     [.downloadInstallerMessage "Post-Installation".data,
      .setButtonState ButtonQuit true], m)

/-- The `PreCheckPage.ResetChanges` (pre_check.go): sets the intro text, then
(in the worker) registers the page as the progress hook, runs
`ctrl.PreCheck`, reports failure (first line of the error, warning style)
with `success = false` or success (disabling the exit button) with
`success = true`, fills the progress bar, sleeps so the user can read the
message, and delivers `success` on the pre-check channel.  `preCheckResult`
is the error returned by the out-of-scope `ctrl.PreCheck`. -/
def preCheckResetChanges (loc : List Char → List Char)
    (preCheckResult : Option (List Char)) : List GuiAction :=
  let intro := GuiAction.setInfoText
    (loc (loc "Checking Prerequisites.".data) ++ " ".data ++ loc "Please wait.".data)
  let outcome := match preCheckResult with
    | some e =>
        ([GuiAction.setInfoText
            (loc "Prerequisites for installation are not met.".data ++ '\n' :: firstLine e),
          .styleWarning], false)
    | none =>
        ([GuiAction.setInfoText
            (loc "Prerequisites for installation are met. Proceeding.".data),
          .setButtonState ButtonExit false], true)
  [intro, .progressSet, .ctrlPreCheck] ++ outcome.1 ++
    [.setFractionFull, .sleep, .setPreCheckChannel outcome.2]




/-! ## Helper lemmas -/

/-- Elements already present are preserved by `addArgUnique`. -/
theorem mem_addArgUnique_of_mem {l : List String} {x : String} (a : String) (h : x ∈ l) :
    x ∈ addArgUnique l a := by
  unfold addArgUnique
  split
  · exact h
  · exact List.mem_append_left _ h

/-- The inserted argument is present after `addArgUnique`. -/
theorem mem_addArgUnique_self (l : List String) (a : String) : a ∈ addArgUnique l a := by
  unfold addArgUnique
  split
  · assumption
  · exact List.mem_append_right _ (List.mem_singleton.mpr rfl)

/-- Elements already present are preserved by folding `addArgUnique`. -/
theorem mem_foldl_addArgUnique_of_mem {l : List String} {x : String} (args : List String)
    (h : x ∈ l) : x ∈ args.foldl addArgUnique l := by
  induction args generalizing l with
  | nil => exact h
  | cons a as ih => exact ih (mem_addArgUnique_of_mem a h)

/-- Every element of the argument list is present after folding
`addArgUnique`. -/
theorem mem_foldl_addArgUnique_of_mem_args {args : List String} {x : String} (l : List String)
    (h : x ∈ args) : x ∈ args.foldl addArgUnique l := by
  induction args generalizing l with
  | nil => cases h
  | cons a as ih =>
    rcases List.mem_cons.mp h with h' | h'
    · subst h'; exact mem_foldl_addArgUnique_of_mem as (mem_addArgUnique_self l x)
    · exact ih _ h'

/-- Folding `addArgUnique` over arguments that are all already present is
the identity: duplicate arguments are suppressed. -/
theorem foldl_addArgUnique_of_subset {args l : List String} (h : ∀ x ∈ args, x ∈ l) :
    args.foldl addArgUnique l = l := by
  induction args with
  | nil => rfl
  | cons a as ih =>
    have ha : a ∈ l := h a (List.mem_cons_self a as)
    simp only [List.foldl_cons]
    rw [show addArgUnique l a = l by simp [addArgUnique, ha]]
    exact ih (fun x hx => h x (List.mem_cons_of_mem _ hx))

/-! ## Claims -/

/-- Claim C4: for every `SystemInstall` model, `IsTelemetryEnabled` returns
`false` (a total function, so it never panics or errors) while the
`Telemetry` holder is absent (`none`), which is the state before any
`EnableTelemetry` call (a fresh model's holder is `none`); after one or
more `EnableTelemetry` calls the holder is allocated (`isSome`) and
`IsTelemetryEnabled` returns the last value passed. -/
theorem C4_telemetry_absent_false_last_wins :
    (∀ si : SystemInstall, si.Telemetry = none → si.IsTelemetryEnabled = false) ∧
    ({} : SystemInstall).Telemetry = none ∧
    (∀ (si : SystemInstall) (b : Bool),
        (si.EnableTelemetry b).Telemetry.isSome = true ∧
        (si.EnableTelemetry b).IsTelemetryEnabled = b) ∧
    (∀ (si : SystemInstall) (bs : List Bool) (b : Bool),
        ((bs ++ [b]).foldl SystemInstall.EnableTelemetry si).IsTelemetryEnabled = b) := by
  refine ⟨?_, rfl, ?_, ?_⟩
  · intro si h
    simp [SystemInstall.IsTelemetryEnabled, h]
  · intro si b
    exact ⟨rfl, rfl⟩
  · intro si bs b
    rw [List.foldl_append]
    rfl

/-- Witness for C4 at a concrete model: a fresh model reports telemetry
disabled, and after `EnableTelemetry true` it reports it enabled. -/
theorem C4_telemetry_witness :
    ({} : SystemInstall).IsTelemetryEnabled = false ∧
    (({} : SystemInstall).EnableTelemetry true).IsTelemetryEnabled = true :=
  ⟨C4_telemetry_absent_false_last_wins.1 {} rfl,
   (C4_telemetry_absent_false_last_wins.2.2.1 {} true).2⟩

/-- Claim C5: the first `AddExtraKernelArguments` or `RemoveKernelArguments`
call allocates the `KernelArguments` holder; after
`AddExtraKernelArguments L` every element of `L` is in the `Add` set
(symmetrically for `RemoveKernelArguments` and `Remove`); and calling the
same operation a second time with the same list `L` leaves the model equal
to the result of calling it once — duplicate arguments are suppressed and
the set does not grow. -/
theorem C5_kernel_arguments_lazy_dedup :
    (∀ (si : SystemInstall) (L : List String),
        (si.AddExtraKernelArguments L).KernelArguments.isSome = true ∧
        (si.RemoveKernelArguments L).KernelArguments.isSome = true) ∧
    (∀ (si : SystemInstall) (L : List String) (ka : KernelArguments),
        ((si.AddExtraKernelArguments L).KernelArguments = some ka →
            ∀ a ∈ L, a ∈ ka.Add) ∧
        ((si.RemoveKernelArguments L).KernelArguments = some ka →
            ∀ a ∈ L, a ∈ ka.Remove)) ∧
    (∀ (si : SystemInstall) (L : List String),
        (si.AddExtraKernelArguments L).AddExtraKernelArguments L =
          si.AddExtraKernelArguments L ∧
        (si.RemoveKernelArguments L).RemoveKernelArguments L =
          si.RemoveKernelArguments L) := by
  refine ⟨?_, ?_, ?_⟩
  · intro si L
    exact ⟨rfl, rfl⟩
  · intro si L ka
    constructor
    · intro h a ha
      simp only [SystemInstall.AddExtraKernelArguments, Option.some.injEq] at h
      subst h
      exact mem_foldl_addArgUnique_of_mem_args _ ha
    · intro h a ha
      simp only [SystemInstall.RemoveKernelArguments, Option.some.injEq] at h
      subst h
      exact mem_foldl_addArgUnique_of_mem_args _ ha
  · intro si L
    constructor
    · simp only [SystemInstall.AddExtraKernelArguments, Option.getD_some]
      rw [foldl_addArgUnique_of_subset
            (fun x hx => mem_foldl_addArgUnique_of_mem_args _ hx)]
    · simp only [SystemInstall.RemoveKernelArguments, Option.getD_some]
      rw [foldl_addArgUnique_of_subset
            (fun x hx => mem_foldl_addArgUnique_of_mem_args _ hx)]

/-- Witness for C5 at a concrete model and list: both kernel-argument sets
after the calls on `["arg1", "arg2", "arg1"]` from a fresh model. -/
theorem C5_kernel_arguments_witness :
    (({} : SystemInstall).AddExtraKernelArguments
        ["arg1", "arg2", "arg1"]).KernelArguments.isSome = true ∧
    ("arg2" ∈ ((({} : SystemInstall).AddExtraKernelArguments
        ["arg1", "arg2", "arg1"]).KernelArguments.getD {}).Add) ∧
    (({} : SystemInstall).AddExtraKernelArguments
        ["arg1", "arg2", "arg1"]).AddExtraKernelArguments ["arg1", "arg2", "arg1"] =
      ({} : SystemInstall).AddExtraKernelArguments ["arg1", "arg2", "arg1"] :=
  ⟨(C5_kernel_arguments_lazy_dedup.1 {} ["arg1", "arg2", "arg1"]).1,
   (C5_kernel_arguments_lazy_dedup.2.1 {} ["arg1", "arg2", "arg1"]
       ((({} : SystemInstall).AddExtraKernelArguments
          ["arg1", "arg2", "arg1"]).KernelArguments.getD {})).1 rfl "arg2" (by decide),
   (C5_kernel_arguments_lazy_dedup.2.2 {} ["arg1", "arg2", "arg1"]).1⟩

/-- Structural equality on block devices is reflexive. -/
theorem BlockDevice.Equals_self (d : BlockDevice) : d.Equals d = true := by
  simp [BlockDevice.Equals]

/-- The name set by `withName`. -/
theorem BlockDevice.Name_withName (d : BlockDevice) (n : String) :
    (d.withName n).Name = n := by
  cases d
  rfl

/-- No string equals itself with `"-cloned"` appended. -/
theorem string_ne_append_cloned (s : String) : s ≠ s ++ "-cloned" := by
  intro h
  have h2 := congrArg String.length h
  simp [String.length_append] at h2
  exact absurd h2 (by decide)

/-- A device never structurally equals its clone with a modified name. -/
theorem BlockDevice.Equals_withName_cloned (d : BlockDevice) :
    d.Equals (d.Clone.withName (d.Name ++ "-cloned")) = false := by
  simp only [BlockDevice.Equals, BlockDevice.Clone, decide_eq_false_iff_not]
  intro h
  have h2 := congrArg BlockDevice.Name h
  rw [BlockDevice.Name_withName] at h2
  exact string_ne_append_cloned _ h2

/-- The `AddTargetMedia` is a no-op when an equal device is present. -/
theorem addTargetMedia_present {si : SystemInstall} {d : BlockDevice}
    (h : si.TargetMedias.any (fun c => c.Equals d) = true) : si.AddTargetMedia d = si := by
  simp [SystemInstall.AddTargetMedia, h]

/-- The `AddTargetMedia` appends when no equal device is present. -/
theorem addTargetMedia_absent {si : SystemInstall} {d : BlockDevice}
    (h : si.TargetMedias.any (fun c => c.Equals d) = false) :
    (si.AddTargetMedia d).TargetMedias = si.TargetMedias ++ [d] := by
  simp [SystemInstall.AddTargetMedia, h]

/-- Repeating `AddTargetMedia` with the same device changes nothing. -/
theorem addTargetMedia_idem (si : SystemInstall) (d : BlockDevice) :
    (si.AddTargetMedia d).AddTargetMedia d = si.AddTargetMedia d := by
  by_cases h : si.TargetMedias.any (fun c => c.Equals d) = true
  · rw [addTargetMedia_present h, addTargetMedia_present h]
  · have h' : si.TargetMedias.any (fun c => c.Equals d) = false := by
      simpa using h
    apply addTargetMedia_present
    rw [addTargetMedia_absent h']
    simp [List.any_append, BlockDevice.Equals_self]

/-- Repeating `AddBundle` with the same name changes nothing. -/
theorem addBundle_idem (si : SystemInstall) (b : String) :
    (si.AddBundle b).AddBundle b = si.AddBundle b := by
  by_cases h : b ∈ si.Bundles <;>
    simp [SystemInstall.AddBundle, h]

/-- Repeating `AddUser` with the same user changes nothing. -/
theorem addUser_idem (si : SystemInstall) (u : User) :
    (si.AddUser u).AddUser u = si.AddUser u := by
  by_cases h : si.Users.any (fun c => c.Login = u.Login) = true
  · simp only [SystemInstall.AddUser, h, if_true]
  · have h' : si.Users.any (fun c => c.Login = u.Login) = false := by
      simpa using h
    simp [SystemInstall.AddUser, h', List.any_append]

/-- Repeating `AddNetworkInterface` with the same interface changes
nothing. -/
theorem addNetworkInterface_idem (si : SystemInstall) (n : NetworkInterface) :
    (si.AddNetworkInterface n).AddNetworkInterface n = si.AddNetworkInterface n := by
  by_cases h : n ∈ si.NetworkInterfaces <;>
    simp [SystemInstall.AddNetworkInterface, h]

/-- Claim C3: every "add" mutator (`AddTargetMedia`, `AddBundle`, `AddUser`,
`AddNetworkInterface`) is idempotent under repeated insertion of an equal
element: inserting an element already present by the type's defined
equality is a no-op (the mutators are total functions, so never an error),
while inserting a differing element appends it; in particular, from a fresh
model `AddTargetMedia d` twice leaves `TargetMedias` at length 1, and
`AddTargetMedia d` followed by adding a clone of `d` with a modified name
leaves it at length 2. -/
theorem C3_add_mutators_idempotent :
    (∀ (si : SystemInstall) (d : BlockDevice),
        (si.TargetMedias.any (fun c => c.Equals d) = true → si.AddTargetMedia d = si) ∧
        (si.TargetMedias.any (fun c => c.Equals d) = false →
            (si.AddTargetMedia d).TargetMedias = si.TargetMedias ++ [d])) ∧
    (∀ (si : SystemInstall) (d : BlockDevice),
        (si.AddTargetMedia d).AddTargetMedia d = si.AddTargetMedia d) ∧
    (∀ (si : SystemInstall) (b : String),
        (si.AddBundle b).AddBundle b = si.AddBundle b) ∧
    (∀ (si : SystemInstall) (u : User),
        (si.AddUser u).AddUser u = si.AddUser u) ∧
    (∀ (si : SystemInstall) (n : NetworkInterface),
        (si.AddNetworkInterface n).AddNetworkInterface n = si.AddNetworkInterface n) ∧
    (∀ d : BlockDevice,
        ((({} : SystemInstall).AddTargetMedia d).AddTargetMedia d).TargetMedias.length = 1 ∧
        ((({} : SystemInstall).AddTargetMedia d).AddTargetMedia
            (d.Clone.withName (d.Name ++ "-cloned"))).TargetMedias.length = 2) := by
  refine ⟨?_, addTargetMedia_idem, addBundle_idem, addUser_idem,
          addNetworkInterface_idem, ?_⟩
  · intro si d
    exact ⟨fun h => addTargetMedia_present h, fun h => addTargetMedia_absent h⟩
  · intro d
    have h0 : (({} : SystemInstall).TargetMedias.any (fun c => c.Equals d)) = false := rfl
    have h1 : (({} : SystemInstall).AddTargetMedia d).TargetMedias = [d] := by
      rw [addTargetMedia_absent h0]
      rfl
    constructor
    · rw [addTargetMedia_idem, h1]
      rfl
    · have h2 : ((({} : SystemInstall).AddTargetMedia d).TargetMedias.any
          (fun c => c.Equals (d.Clone.withName (d.Name ++ "-cloned")))) = false := by
        rw [h1]
        simp [BlockDevice.Equals_withName_cloned]
      rw [addTargetMedia_absent h2, h1]
      rfl

/-- Witness for C3 at a concrete device: the no-op and append behaviors of
`AddTargetMedia` on a fresh model with the disk `sda`. -/
theorem C3_add_mutators_witness :
    ((({} : SystemInstall).AddTargetMedia
        (BlockDevice.mk "sda" "" "" 0 false [])).AddTargetMedia
        (BlockDevice.mk "sda" "" "" 0 false [])).TargetMedias.length = 1 ∧
    (({} : SystemInstall).AddTargetMedia
        (BlockDevice.mk "sda" "" "" 0 false [])).TargetMedias =
      [] ++ [BlockDevice.mk "sda" "" "" 0 false []] :=
  ⟨(C3_add_mutators_idempotent.2.2.2.2.2 (BlockDevice.mk "sda" "" "" 0 false [])).1,
   (C3_add_mutators_idempotent.1 {} (BlockDevice.mk "sda" "" "" 0 false [])).2 rfl⟩

/-- Claim C2: `Validate` returns a non-nil error whenever the model has a
missing/empty `Keyboard`, a missing/empty `Language`, no `Telemetry`
decision, no partition flagged bootable among the `TargetMedias`, or no
partition mounted at the root path among them; the returned error
aggregates exactly the violated constraints (each violation is listed iff
its constraint fails, not just the first); and `Validate` returns nil for
a model satisfying all of these constraints. -/
theorem C2_validate_aggregates (si : SystemInstall) :
    (strPresent si.Keyboard = false → si.Validate.isSome = true) ∧
    (strPresent si.Language = false → si.Validate.isSome = true) ∧
    (si.Telemetry = none → si.Validate.isSome = true) ∧
    (si.TargetMedias.any (BlockDevice.hasPart (fun d => d.BootFlag)) = false →
        si.Validate.isSome = true) ∧
    (si.TargetMedias.any (BlockDevice.hasPart (fun d => d.MountPoint = "/")) = false →
        si.Validate.isSome = true) ∧
    (∀ vs, si.Validate = some vs →
        ((Violation.noKeyboard ∈ vs ↔ strPresent si.Keyboard = false) ∧
         (Violation.noLanguage ∈ vs ↔ strPresent si.Language = false) ∧
         (Violation.noTelemetry ∈ vs ↔ si.Telemetry = none) ∧
         (Violation.noBootable ∈ vs ↔
            si.TargetMedias.any (BlockDevice.hasPart (fun d => d.BootFlag)) = false) ∧
         (Violation.noRootPartition ∈ vs ↔
            si.TargetMedias.any (BlockDevice.hasPart (fun d => d.MountPoint = "/")) = false))) ∧
    (strPresent si.Keyboard = true → strPresent si.Language = true →
     si.Telemetry.isSome = true →
     si.TargetMedias.any (BlockDevice.hasPart (fun d => d.BootFlag)) = true →
     si.TargetMedias.any (BlockDevice.hasPart (fun d => d.MountPoint = "/")) = true →
     si.Validate = none) := by
  cases hk : strPresent si.Keyboard <;>
    cases hl : strPresent si.Language <;>
      cases ht : si.Telemetry <;>
        cases hb : si.TargetMedias.any (BlockDevice.hasPart (fun d => d.BootFlag)) <;>
          cases hr : si.TargetMedias.any
              (BlockDevice.hasPart (fun d => d.MountPoint = "/")) <;>
            simp_all [SystemInstall.Validate, SystemInstall.violations]

/-- Witness for C2 at concrete models: a fresh (empty) model fails
validation, and a model with keyboard, language, a telemetry decision, a
bootable partition and a root partition validates cleanly. -/
theorem C2_validate_witness :
    (({} : SystemInstall).Validate.isSome = true) ∧
    ({ Keyboard := some "us", Language := some "en-US",
       Telemetry := some { Enabled := true },
       TargetMedias := [BlockDevice.mk "sda" "" "" 0 false
         [BlockDevice.mk "sda1" "/boot" "vfat" 0 true [],
          BlockDevice.mk "sda2" "/" "ext4" 0 false []]] } : SystemInstall).Validate =
      none :=
  ⟨(C2_validate_aggregates {}).1 rfl,
   (C2_validate_aggregates _).2.2.2.2.2.2 rfl rfl rfl (by decide) (by decide)⟩

/-- The children list produced by `loadBlockDevice` has one entry per
partition descriptor. -/
theorem loadBlockDevice_children_length (reg : List String) (d : BlockDeviceDescriptor) :
    (loadBlockDevice reg d).Children.length = d.parts.length := by
  simp [loadBlockDevice, BlockDevice.Children]

/-- The Nth child produced by `loadBlockDevice` is named positionally
`<disk>{N}` (1-based). -/
theorem loadBlockDevice_child_name (reg : List String) (d : BlockDeviceDescriptor)
    (i : Nat) (h : i < (loadBlockDevice reg d).Children.length) :
    ((loadBlockDevice reg d).Children.get ⟨i, h⟩).Name =
      expandName reg d.name ++ toString (i + 1) := by
  have h2 : i < d.parts.length := by
    rw [← loadBlockDevice_children_length reg d]
    exact h
  rw [List.get_eq_getElem]
  simp only [loadBlockDevice, BlockDevice.Children]
  rw [List.getElem_map, List.getElem_zip, List.getElem_range]
  rfl

/-- Claim C6: for a `BlockDevice` tree loaded from a descriptor for disk
`sda` with the alias `"/dev/sda"` registered, the disk's `Name` is `"sda"`
and `GetDeviceFile()` resolves to `"/dev/sda"`; child naming is positional,
so the Nth child partition (in child order) is named `sda{N}` with device
file `/dev/sda{N}` — two partitions yield `/dev/sda1` and `/dev/sda2`. -/
theorem C6_alias_positional_naming :
    (∀ (reg : List String) (d : BlockDeviceDescriptor),
        (loadBlockDevice reg d).Name = expandName reg d.name ∧
        (loadBlockDevice reg d).GetDeviceFile = "/dev/" ++ expandName reg d.name ∧
        (loadBlockDevice reg d).Children.length = d.parts.length ∧
        (∀ (i : Nat) (h : i < (loadBlockDevice reg d).Children.length),
            ((loadBlockDevice reg d).Children.get ⟨i, h⟩).Name =
              expandName reg d.name ++ toString (i + 1) ∧
            ((loadBlockDevice reg d).Children.get ⟨i, h⟩).GetDeviceFile =
              "/dev/" ++ (expandName reg d.name ++ toString (i + 1)))) ∧
    (loadBlockDevice ["/dev/sda"]
        { name := .var "sda",
          parts := [("/boot", "vfat", 0, true), ("/", "ext4", 0, false)] }).Name =
      "sda" ∧
    (loadBlockDevice ["/dev/sda"]
        { name := .var "sda",
          parts := [("/boot", "vfat", 0, true), ("/", "ext4", 0, false)] }).GetDeviceFile =
      "/dev/sda" ∧
    ((loadBlockDevice ["/dev/sda"]
        { name := .var "sda",
          parts := [("/boot", "vfat", 0, true), ("/", "ext4", 0, false)] }).Children.map
        BlockDevice.GetDeviceFile) = ["/dev/sda1", "/dev/sda2"] := by
  refine ⟨?_, by decide, by decide, by decide⟩
  intro reg d
  refine ⟨rfl, rfl, loadBlockDevice_children_length reg d, ?_⟩
  intro i h
  refine ⟨loadBlockDevice_child_name reg d i h, ?_⟩
  show "/dev/" ++ ((loadBlockDevice reg d).Children.get ⟨i, h⟩).Name = _
  rw [loadBlockDevice_child_name reg d i h]

/-- Witness for C6: the positional-naming fact applied at the concrete
two-partition `sda` descriptor's first child. -/
theorem C6_alias_witness :
    ((loadBlockDevice ["/dev/sda"]
        { name := .var "sda",
          parts := [("/boot", "vfat", 0, true), ("/", "ext4", 0, false)] }).Children.get
        ⟨0, by decide⟩).Name =
      expandName ["/dev/sda"] (.var "sda") ++ toString (0 + 1) :=
  ((C6_alias_positional_naming.1 ["/dev/sda"]
      { name := .var "sda",
        parts := [("/boot", "vfat", 0, true), ("/", "ext4", 0, false)] }).2.2.2 0
      (by decide)).1

/-- A successful `InstallPage.Desc` increments the selection counter by
exactly one. -/
theorem installDesc_selection {p : InstallPage} {d : String} {q : InstallPage}
    (h : p.Desc d = some q) : q.selection = p.selection + 1 := by
  unfold InstallPage.Desc at h
  dsimp only at h
  split at h
  · split at h
    · cases h
    · cases h
      rfl
  · cases h
    rfl

/-- A successful `InstallPage.Desc` stores a fresh running widget at the
new selection index. -/
theorem installDesc_current {p : InstallPage} {d : String} {q : InstallPage}
    (h : p.Desc d = some q) : q.widgets q.selection = some (NewInstallWidget d) := by
  have hsel := installDesc_selection h
  unfold InstallPage.Desc at h
  dsimp only at h
  split at h
  · split at h
    · cases h
    · cases h
      simp [hsel]
  · cases h
    simp [hsel]

/-- When a step is already current (`0 ≤ selection`), a successful
`InstallPage.Desc` marks exactly that previous step's widget completed (the
completion is computed from the pre-call widget map, before the new step's
widget is stored) and stores the fresh running widget at the incremented
index. -/
theorem installDesc_prev_completed {p : InstallPage} {d : String} {q : InstallPage}
    (h : p.Desc d = some q) (hsel : 0 ≤ p.selection) :
    q.widgets p.selection = (p.widgets p.selection).map InstallWidget.Completed ∧
    q.widgets (p.selection + 1) = some (NewInstallWidget d) := by
  unfold InstallPage.Desc at h
  dsimp only at h
  have hgt : p.selection + 1 > 0 := by omega
  rw [if_pos hgt] at h
  have harith : p.selection + 1 - 1 = p.selection := by omega
  rw [harith] at h
  cases hw : p.widgets p.selection with
  | none =>
    rw [hw] at h
    cases h
  | some w =>
    rw [hw] at h
    cases h
    constructor
    · have hne : ¬(p.selection = p.selection + 1) := by omega
      simp [hne, harith]
    · simp

/-- The `InstallPage.Success` keeps the selection and marks exactly the current
widget as succeeded; it only succeeds when that widget is present. -/
theorem installSuccess_marks {p q : InstallPage} (h : p.Success = some q) :
    q.selection = p.selection ∧
    q.widgets p.selection = (p.widgets p.selection).map (fun w => w.MarkStatus true) := by
  unfold InstallPage.Success at h
  cases hw : p.widgets p.selection with
  | none =>
    rw [hw] at h
    cases h
  | some w =>
    rw [hw] at h
    cases h
    exact ⟨rfl, by simp⟩

/-- The `InstallPage.Failure` keeps the selection and marks exactly the current
widget as failed. -/
theorem installFailure_marks {p q : InstallPage} (h : p.Failure = some q) :
    q.selection = p.selection ∧
    q.widgets p.selection = (p.widgets p.selection).map (fun w => w.MarkStatus false) := by
  unfold InstallPage.Failure at h
  cases hw : p.widgets p.selection with
  | none =>
    rw [hw] at h
    cases h
  | some w =>
    rw [hw] at h
    cases h
    exact ⟨rfl, by simp⟩

/-- The `InstallPage.Success` and `InstallPage.Failure` run without a nil
dereference exactly when the current widget exists. -/
theorem installMark_isSome {p : InstallPage}
    (h : (p.widgets p.selection).isSome = true) :
    p.Success.isSome = true ∧ p.Failure.isSome = true := by
  unfold InstallPage.Success InstallPage.Failure
  cases hw : p.widgets p.selection with
  | none =>
    rw [hw] at h
    cases h
  | some w => exact ⟨rfl, rfl⟩

/-- The `InstallPage.Success` and `InstallPage.Failure` dereference a nil
widget (embedded as `none`) when the current widget map entry is absent. -/
theorem installMark_none {p : InstallPage}
    (h : p.widgets p.selection = none) :
    p.Success = none ∧ p.Failure = none := by
  unfold InstallPage.Success InstallPage.Failure
  rw [h]
  exact ⟨rfl, rfl⟩

/-- A successful `PreCheckPage.Desc` increments the selection counter by
exactly one. -/
theorem precheckDesc_selection {p : PreCheckPage} {d : String} {q : PreCheckPage}
    (h : p.Desc d = some q) : q.selection = p.selection + 1 := by
  unfold PreCheckPage.Desc at h
  dsimp only at h
  split at h
  · split at h
    · cases h
    · cases h
      rfl
  · cases h
    rfl

/-- A successful `PreCheckPage.Desc` stores a fresh running widget at the
new selection index. -/
theorem precheckDesc_current {p : PreCheckPage} {d : String} {q : PreCheckPage}
    (h : p.Desc d = some q) : q.widgets q.selection = some (NewInstallWidget d) := by
  have hsel := precheckDesc_selection h
  unfold PreCheckPage.Desc at h
  dsimp only at h
  split at h
  · split at h
    · cases h
    · cases h
      simp [hsel]
  · cases h
    simp [hsel]

/-- When a step is already current (`0 ≤ selection`), a successful
`PreCheckPage.Desc` marks exactly that previous step's widget completed
(computed from the pre-call widget map) and stores the fresh running widget
at the incremented index. -/
theorem precheckDesc_prev_completed {p : PreCheckPage} {d : String} {q : PreCheckPage}
    (h : p.Desc d = some q) (hsel : 0 ≤ p.selection) :
    q.widgets p.selection = (p.widgets p.selection).map InstallWidget.Completed ∧
    q.widgets (p.selection + 1) = some (NewInstallWidget d) := by
  unfold PreCheckPage.Desc at h
  dsimp only at h
  have hgt : p.selection + 1 > 0 := by omega
  rw [if_pos hgt] at h
  have harith : p.selection + 1 - 1 = p.selection := by omega
  rw [harith] at h
  cases hw : p.widgets p.selection with
  | none =>
    rw [hw] at h
    cases h
  | some w =>
    rw [hw] at h
    cases h
    constructor
    · have hne : ¬(p.selection = p.selection + 1) := by omega
      simp [hne, harith]
    · simp

/-- The `PreCheckPage.Success` keeps the selection and marks exactly the
current widget as succeeded. -/
theorem precheckSuccess_marks {p q : PreCheckPage} (h : p.Success = some q) :
    q.selection = p.selection ∧
    q.widgets p.selection = (p.widgets p.selection).map (fun w => w.MarkStatus true) := by
  unfold PreCheckPage.Success at h
  cases hw : p.widgets p.selection with
  | none =>
    rw [hw] at h
    cases h
  | some w =>
    rw [hw] at h
    cases h
    exact ⟨rfl, by simp⟩

/-- The `PreCheckPage.Failure` keeps the selection and marks exactly the
current widget as failed. -/
theorem precheckFailure_marks {p q : PreCheckPage} (h : p.Failure = some q) :
    q.selection = p.selection ∧
    q.widgets p.selection = (p.widgets p.selection).map (fun w => w.MarkStatus false) := by
  unfold PreCheckPage.Failure at h
  cases hw : p.widgets p.selection with
  | none =>
    rw [hw] at h
    cases h
  | some w =>
    rw [hw] at h
    cases h
    exact ⟨rfl, by simp⟩

/-- The `PreCheckPage.Success` and `PreCheckPage.Failure` run without a nil
dereference exactly when the current widget exists. -/
theorem precheckMark_isSome {p : PreCheckPage}
    (h : (p.widgets p.selection).isSome = true) :
    p.Success.isSome = true ∧ p.Failure.isSome = true := by
  unfold PreCheckPage.Success PreCheckPage.Failure
  cases hw : p.widgets p.selection with
  | none =>
    rw [hw] at h
    cases h
  | some w => exact ⟨rfl, rfl⟩

/-- The `PreCheckPage.Success` and `PreCheckPage.Failure` dereference a nil
widget (embedded as `none`) when the current widget map entry is absent. -/
theorem precheckMark_none {p : PreCheckPage}
    (h : p.widgets p.selection = none) :
    p.Success = none ∧ p.Failure = none := by
  unfold PreCheckPage.Success PreCheckPage.Failure
  rw [h]
  exact ⟨rfl, rfl⟩

/-- Claim C1: for every run of a progress page (`InstallPage` or
`PreCheckPage`), the step-index counter starts at -1 and is incremented
exactly once per `Desc` call; every `Desc` except the first marks the step
created by the immediately preceding `Desc` as completed (the completion is
computed from the pre-call widget map, before the new widget is stored),
and `Success`/`Failure` mark the status of the step created by the most
recent `Desc`.  In particular, for `Desc "A"; Desc "B"; Success()` from a
fresh page, step A is recorded completed in the state where B has just been
created and is still running, and B is recorded succeeded at the end. -/
theorem C1_progress_step_protocol :
    NewInstallPage.selection = -1 ∧
    NewPreCheckPage.selection = -1 ∧
    (∀ (p : InstallPage) (d : String) (q : InstallPage),
        p.Desc d = some q → q.selection = p.selection + 1) ∧
    (∀ (p : PreCheckPage) (d : String) (q : PreCheckPage),
        p.Desc d = some q → q.selection = p.selection + 1) ∧
    (∀ (p : InstallPage) (d : String) (q : InstallPage),
        p.Desc d = some q → 0 ≤ p.selection →
        q.widgets p.selection = (p.widgets p.selection).map InstallWidget.Completed ∧
        q.widgets (p.selection + 1) = some (NewInstallWidget d)) ∧
    (∀ (p : PreCheckPage) (d : String) (q : PreCheckPage),
        p.Desc d = some q → 0 ≤ p.selection →
        q.widgets p.selection = (p.widgets p.selection).map InstallWidget.Completed ∧
        q.widgets (p.selection + 1) = some (NewInstallWidget d)) ∧
    (∀ (p q : InstallPage), p.Success = some q →
        q.widgets p.selection =
          (p.widgets p.selection).map (fun w => w.MarkStatus true)) ∧
    (∀ (p q : InstallPage), p.Failure = some q →
        q.widgets p.selection =
          (p.widgets p.selection).map (fun w => w.MarkStatus false)) ∧
    (∀ (p q : PreCheckPage), p.Success = some q →
        q.widgets p.selection =
          (p.widgets p.selection).map (fun w => w.MarkStatus true)) ∧
    (∀ (p q : PreCheckPage), p.Failure = some q →
        q.widgets p.selection =
          (p.widgets p.selection).map (fun w => w.MarkStatus false)) ∧
    ((NewInstallPage.Desc "A").bind (fun p => p.Desc "B")).map
        (fun q => ((q.widgets 0).map InstallWidget.status,
                   (q.widgets 1).map InstallWidget.status, q.selection)) =
      some (some .completed, some .running, 1) ∧
    (((NewInstallPage.Desc "A").bind (fun p => p.Desc "B")).bind
        InstallPage.Success).map
        (fun q => ((q.widgets 0).map InstallWidget.status,
                   (q.widgets 1).map InstallWidget.status)) =
      some (some .completed, some .succeeded) ∧
    (((NewPreCheckPage.Desc "A").bind (fun p => p.Desc "B")).bind
        PreCheckPage.Success).map
        (fun q => ((q.widgets 0).map InstallWidget.status,
                   (q.widgets 1).map InstallWidget.status)) =
      some (some .completed, some .succeeded) := by
  refine ⟨rfl, rfl,
    fun p d q h => installDesc_selection h,
    fun p d q h => precheckDesc_selection h,
    fun p d q h hs => installDesc_prev_completed h hs,
    fun p d q h hs => precheckDesc_prev_completed h hs,
    fun p q h => (installSuccess_marks h).2,
    fun p q h => (installFailure_marks h).2,
    fun p q h => (precheckSuccess_marks h).2,
    fun p q h => (precheckFailure_marks h).2,
    by decide, by decide, by decide⟩

/-- Witness for C1 at a concrete run: the first `Desc "A"` on a fresh
install page increments the counter from -1 to 0. -/
theorem C1_progress_step_witness :
    ((NewInstallPage.Desc "A").get (by decide)).selection =
      NewInstallPage.selection + 1 :=
  C1_progress_step_protocol.2.2.1 NewInstallPage "A"
    ((NewInstallPage.Desc "A").get (by decide)) (Option.some_get (by decide)).symm

/-- Claim C10: on a freshly constructed `InstallPage` or `PreCheckPage`
(selection = -1, empty widgets map), calling `Success()` or `Failure()`
before any `Desc()` looks up `widgets[-1]`, an absent map entry, and
invokes `MarkStatus` on the resulting nil widget (embedded: the operation
yields `none`); generally the two calls hit a nil widget whenever the
current entry is absent, and they are safe after any `Desc`, which always
leaves the current widget present (so `selection ≥ 0` with a live widget
is the implied precondition). -/
theorem C10_mark_before_desc_nil :
    NewInstallPage.selection = -1 ∧
    NewInstallPage.widgets NewInstallPage.selection = none ∧
    NewInstallPage.Success = none ∧
    NewInstallPage.Failure = none ∧
    NewPreCheckPage.selection = -1 ∧
    NewPreCheckPage.widgets NewPreCheckPage.selection = none ∧
    NewPreCheckPage.Success = none ∧
    NewPreCheckPage.Failure = none ∧
    (∀ p : InstallPage, p.widgets p.selection = none →
        p.Success = none ∧ p.Failure = none) ∧
    (∀ p : PreCheckPage, p.widgets p.selection = none →
        p.Success = none ∧ p.Failure = none) ∧
    (∀ (p : InstallPage) (d : String) (q : InstallPage), p.Desc d = some q →
        q.Success.isSome = true ∧ q.Failure.isSome = true) ∧
    (∀ (p : PreCheckPage) (d : String) (q : PreCheckPage), p.Desc d = some q →
        q.Success.isSome = true ∧ q.Failure.isSome = true) := by
  refine ⟨rfl, rfl, rfl, rfl, rfl, rfl, rfl, rfl,
    fun p h => installMark_none h,
    fun p h => precheckMark_none h,
    fun p d q h => installMark_isSome (by rw [installDesc_current h]; rfl),
    fun p d q h => precheckMark_isSome (by rw [precheckDesc_current h]; rfl)⟩

/-- Witness for C10 at concrete pages: the fresh install page's premature
mark yields the nil dereference, while after one `Desc` both marks are
safe. -/
theorem C10_mark_before_desc_witness :
    (NewInstallPage.Success = none ∧ NewInstallPage.Failure = none) ∧
    (((NewInstallPage.Desc "A").get (by decide)).Success.isSome = true ∧
     ((NewInstallPage.Desc "A").get (by decide)).Failure.isSome = true) :=
  ⟨C10_mark_before_desc_nil.2.2.2.2.2.2.2.2.1 NewInstallPage rfl,
   C10_mark_before_desc_nil.2.2.2.2.2.2.2.2.2.2.1 NewInstallPage "A"
     ((NewInstallPage.Desc "A").get (by decide)) (Option.some_get (by decide)).symm⟩

/-- The `splitNewline` always returns at least one segment (as Go's
`strings.Split` does). -/
theorem splitNewline_ne_nil (s : List Char) : splitNewline s ≠ [] := by
  induction s with
  | nil => simp [splitNewline]
  | cons c cs ih =>
    unfold splitNewline
    split
    · simp
    · cases h : splitNewline cs with
      | nil => simp
      | cons l ls => simp

/-- The first segment of `strings.Split(s, "\n")` is the longest prefix of
`s` free of newlines. -/
theorem firstLine_eq_takeWhile (s : List Char) :
    firstLine s = s.takeWhile (fun c => !(c == '\n')) := by
  induction s with
  | nil => rfl
  | cons c cs ih =>
    unfold firstLine splitNewline
    by_cases hc : c = '\n'
    · subst hc
      simp [List.takeWhile_cons]
    · rw [if_neg hc]
      cases h : splitNewline cs with
      | nil => exact absurd h (splitNewline_ne_nil cs)
      | cons l ls =>
        have hl : l = cs.takeWhile (fun c => !(c == '\n')) := by
          rw [← ih]
          unfold firstLine
          rw [h]
          rfl
        simp [List.takeWhile_cons, hc, hl]

/-- The first line of an error message contains no newline. -/
theorem newline_not_mem_firstLine (s : List Char) : '\n' ∉ firstLine s := by
  rw [firstLine_eq_takeWhile]
  intro h
  have h2 := List.mem_takeWhile_imp h
  simp at h2

/-- The error message is exactly its first line followed by the remaining
(unshown) lines. -/
theorem firstLine_append_dropWhile (s : List Char) :
    firstLine s ++ s.dropWhile (fun c => !(c == '\n')) = s := by
  rw [firstLine_eq_takeWhile]
  exact List.takeWhile_append_dropWhile _ _

/-- Claim C7: for every model on which `Validate` returns a non-nil error,
the install page's `ResetChanges` never starts the install worker:
`ctrl.Install` is not invoked, no progress client is registered via
`progress.Set`, and the model is returned unmodified (validation does not
auto-correct it). -/
theorem C7_validation_blocks_install (loc : List Char → List Char)
    (m : SystemInstall) (r : Option (List Char)) (e : List Violation)
    (h : m.Validate = some e) :
    GuiAction.ctrlInstall ∉ (installResetChanges loc m r).1 ∧
    GuiAction.progressSet ∉ (installResetChanges loc m r).1 ∧
    (installResetChanges loc m r).2 = m := by
  refine ⟨?_, ?_, ?_⟩ <;> simp [installResetChanges, h]

/-- Witness for C7 at a concrete run: the fresh (invalid) model with the
identity locale and a nil worker result. -/
theorem C7_validation_blocks_install_witness :
    GuiAction.ctrlInstall ∉ (installResetChanges (fun t => t) {} none).1 ∧
    GuiAction.progressSet ∉ (installResetChanges (fun t => t) {} none).1 ∧
    (installResetChanges (fun t => t) {} none).2 = ({} : SystemInstall) :=
  C7_validation_blocks_install (fun t => t) {} none
    [.noKeyboard, .noLanguage, .noTelemetry, .noBootable, .noRootPartition]
    (by decide)

/-- Claim C8: for every pre-check run started by `PreCheckPage.ResetChanges`,
exactly one boolean is delivered on the dedicated one-shot completion
channel (`SetPreCheckChannel`), as the final action after `ctrl.PreCheck`
has terminated; the boolean is `true` if and only if `ctrl.PreCheck`
returned nil. -/
theorem C8_precheck_channel_oneshot (loc : List Char → List Char)
    (r : Option (List Char)) :
    ((preCheckResetChanges loc r).filterMap (fun a =>
        match a with
        | .setPreCheckChannel b => some b
        | _ => none)) = [r.isNone] ∧
    (preCheckResetChanges loc r).getLast? =
      some (.setPreCheckChannel r.isNone) ∧
    (preCheckResetChanges loc r).get? 2 = some GuiAction.ctrlPreCheck := by
  cases r <;> simp [preCheckResetChanges]

/-- Claim C9: for every non-nil error returned by the install or pre-check
worker, the user-visible failure text appends exactly the first line of
the error's message (the prefix of `err.Error()` before the first newline)
to the localized failure prefix; that first line contains no newline, and
the remaining lines (the dropped suffix) are not shown inline. -/
theorem C9_failure_first_line (loc : List Char → List Char)
    (m : SystemInstall) (e : List Char) (h : m.Validate = none) :
    GuiAction.setInfoText
        (loc "Installation failed.".data ++ '\n' :: firstLine e) ∈
      (installResetChanges loc m (some e)).1 ∧
    GuiAction.setInfoText
        (loc "Prerequisites for installation are not met.".data ++
          '\n' :: firstLine e) ∈
      preCheckResetChanges loc (some e) ∧
    firstLine e = e.takeWhile (fun c => !(c == '\n')) ∧
    '\n' ∉ firstLine e ∧
    firstLine e ++ e.dropWhile (fun c => !(c == '\n')) = e := by
  refine ⟨?_, ?_, firstLine_eq_takeWhile e, newline_not_mem_firstLine e,
    firstLine_append_dropWhile e⟩
  · simp [installResetChanges, h]
  · simp [preCheckResetChanges]

/-- Witness for C9 at a concrete valid model and the two-line error
message `"boom\ndetail"`: its first line is newline-free. -/
theorem C9_failure_first_line_witness :
    firstLine "boom\ndetail".data = "boom\ndetail".data.takeWhile
        (fun c => !(c == '\n')) ∧
    '\n' ∉ firstLine "boom\ndetail".data :=
  ⟨(C9_failure_first_line (fun t => t)
      { Keyboard := some "us", Language := some "en-US",
        Telemetry := some { Enabled := true },
        TargetMedias := [BlockDevice.mk "sda" "" "" 0 false
          [BlockDevice.mk "sda1" "/boot" "vfat" 0 true [],
           BlockDevice.mk "sda2" "/" "ext4" 0 false []]] }
      "boom\ndetail".data (by decide)).2.2.1,
   (C9_failure_first_line (fun t => t)
      { Keyboard := some "us", Language := some "en-US",
        Telemetry := some { Enabled := true },
        TargetMedias := [BlockDevice.mk "sda" "" "" 0 false
          [BlockDevice.mk "sda1" "/boot" "vfat" 0 true [],
           BlockDevice.mk "sda2" "/" "ext4" 0 false []]] }
      "boom\ndetail".data (by decide)).2.2.2.1⟩
